import Mathlib

/-
Verification development for the suncalc python library (suncalc/suncalc.py).

Modelling conventions:
- Python floats are modelled as exact rationals.  The IEEE NaN value is
  modelled by the value none of the type F := Option Rat; numpy operations
  propagate NaN, which the lifted operations below reproduce.
- The transcendental primitives (np.sin, np.cos, np.arcsin, np.arccos,
  np.arctan2, np.sqrt, np.pi) have no exact rational meaning, so the whole
  pipeline is parametrised by a structure Trig holding an arbitrary rational
  interpretation of each primitive.  The structural facts proved below hold
  for every interpretation.  The domain behaviour of np.arcsin, np.arccos
  (NaN outside [-1, 1]) and np.sqrt (NaN below 0) is kept structural, since
  it does not depend on the interpretation of the in-domain values.
- Timestamps are represented by their UTC epoch value in milliseconds, as a
  rational; from_julian quantises to the nanosecond resolution of the
  pandas timestamps the code produces.
-/

namespace Suncalc

/-- Floating point values: some q is an ordinary float, none is NaN. -/
abbrev F := Option ℚ

/-- Rational interpretation of the numpy transcendental primitives. -/
structure Trig where
  piV : ℚ
  sinV : ℚ → ℚ
  cosV : ℚ → ℚ
  tanV : ℚ → ℚ
  asinV : ℚ → ℚ
  acosV : ℚ → ℚ
  atan2V : ℚ → ℚ → ℚ
  sqrtV : ℚ → ℚ

/-- Lift a total binary float operation to NaN-propagating operands. -/
def fmap2 (f : ℚ → ℚ → ℚ) : F → F → F :=
  fun a b => a.bind fun x => b.map fun y => f x y

def fadd : F → F → F := fmap2 (· + ·)

def fsub : F → F → F := fmap2 (· - ·)

def fmul : F → F → F := fmap2 (· * ·)

/-- Division.  A zero denominator produces inf or NaN in numpy; it is
modelled as none here, which is faithful for every use in this file because
each quotient feeds np.arccos, where an infinite argument gives NaN. -/
def fdiv : F → F → F :=
  fun a b => a.bind fun x => b.bind fun y => if y = 0 then none else some (x / y)

def fsin (T : Trig) : F → F := Option.map T.sinV

def fcos (T : Trig) : F → F := Option.map T.cosV

/-- np.arcsin: NaN outside [-1, 1]. -/
def asinF (T : Trig) (q : ℚ) : F := if |q| ≤ 1 then some (T.asinV q) else none

/-- np.arccos: NaN outside [-1, 1]. -/
def acosF (T : Trig) (q : ℚ) : F := if |q| ≤ 1 then some (T.acosV q) else none

def facos (T : Trig) : F → F := fun x => x.bind (acosF T)

def fatan2 (T : Trig) : F → F → F := fmap2 T.atan2V

/-- np.sqrt: NaN below 0. -/
def fsqrt (T : Trig) : F → F :=
  fun x => x.bind fun q => if 0 ≤ q then some (T.sqrtV q) else none

/-- np.sign. -/
def fsign : F → F :=
  Option.map fun q => if q < 0 then -1 else if q = 0 then 0 else 1

-- date/time constants and conversions (suncalc.py lines 58-61)

def dayMs : ℚ := 1000 * 60 * 60 * 24

def J1970 : ℚ := 2440588

def J2000 : ℚ := 2451545

/-- PI / 180, for an interpretation of np.pi. -/
def rad (T : Trig) : ℚ := T.piV / 180

/-- to_julian (line 89): epoch milliseconds to julian day. -/
def to_julian (ms : ℚ) : ℚ := ms / dayMs - 0.5 + J1970

/-- from_julian (line 93), scalar path with pandas available: the julian day
is turned into epoch milliseconds and handed to pd.to_datetime(-, unit=ms),
which stores an integer number of nanoseconds; the returned instant is that
quantity expressed in milliseconds. -/
def from_julian (j : ℚ) : ℚ :=
  ((round ((j + 0.5 - J1970) * dayMs * 1000000) : ℤ) : ℚ) / 1000000

/-- to_days (line 120). -/
def to_days (ms : ℚ) : ℚ := to_julian ms - J2000

-- to_milliseconds (lines 64-86): dynamic dispatch over the temporal input

/-- The shapes of temporal input reaching to_milliseconds.  A pd.Timestamp
is a subclass of datetime.datetime, so it is caught by the first isinstance
branch; the dedicated pd.Timestamp branch of the source is unreachable for
it.  arrayOther is an object carrying a non-datetime dtype attribute (the
field says whether the last-ditch pd.to_datetime can convert it, with the
millisecond value it would produce); plainOther is an object without a
dtype attribute. -/
inductive TemporalInput where
  | pyDatetime (ms : ℚ)
  | pdTimestamp (ms : ℚ)
  | pdDatetimeSeries (ns : List ℤ)
  | npDatetime64 (ms : ℤ)
  | arrayOther (pdConvertible : Bool) (ms : ℚ)
  | plainOther
deriving DecidableEq

inductive MsValue where
  | scalar (q : ℚ)
  | vector (qs : List ℚ)
deriving DecidableEq

/-- The exceptions the source can raise while converting: an
AttributeError from reading date.dtype on an object without that
attribute (line 79), an error raised inside the last-ditch
pd.to_datetime call (line 84), and the explicit ValueError with message
Unknown date type (line 86). -/
inductive ConvErr where
  | attributeError
  | pandasParseError
  | unknownDateType
deriving DecidableEq

/-- to_milliseconds (lines 64-86).  Branch order follows the source:
isinstance datetime; pandas datetime64 dtype check; pd.Timestamp
isinstance; date.dtype access (AttributeError when absent); np.datetime64
dtype; last-ditch pd.to_datetime when pandas is available; ValueError. -/
def to_milliseconds (pdAvailable : Bool) : TemporalInput → Except ConvErr MsValue
  | .pyDatetime ms => .ok (.scalar ms)
  | .pdTimestamp ms => .ok (.scalar ms)
  | .pdDatetimeSeries ns =>
      if pdAvailable then .ok (.vector (ns.map fun x => (x : ℚ) / 1000000))
      else .ok (.vector (ns.map fun x => ((Int.fdiv x 1000000 : ℤ) : ℚ)))
  | .npDatetime64 ms => .ok (.scalar (ms : ℚ))
  | .arrayOther pdConvertible ms =>
      if pdAvailable then
        if pdConvertible then .ok (.scalar ms) else .error .pandasParseError
      else .error .unknownDateType
  | .plainOther => .error .attributeError

/-- The four input representations the specification lists as recognized. -/
def recognizedInput : TemporalInput → Bool
  | .pyDatetime _ => true
  | .pdTimestamp _ => true
  | .pdDatetimeSeries _ => true
  | .npDatetime64 _ => true
  | _ => false

/-- Unrecognized inputs that no conversion path can turn into an instant. -/
def unconvertibleInput : TemporalInput → Bool
  | .arrayOther pdConvertible _ => !pdConvertible
  | .plainOther => true
  | _ => false

def okB {ε α : Type} : Except ε α → Bool
  | .ok _ => true
  | .error _ => false

def errB {ε α : Type} : Except ε α → Bool
  | .ok _ => false
  | .error _ => true

-- general calculations for position (lines 124-158)

/-- Obliquity of the Earth (line 127). -/
def e (T : Trig) : ℚ := rad T * 23.4397

/-- right_ascension (line 130). -/
def right_ascension (T : Trig) (l b : ℚ) : ℚ :=
  T.atan2V (T.sinV l * T.cosV (e T) - T.tanV b * T.sinV (e T)) (T.cosV l)

/-- declination (line 134); np.arcsin gives NaN outside [-1, 1]. -/
def declination (T : Trig) (l b : ℚ) : F :=
  asinF T (T.sinV b * T.cosV (e T) + T.cosV b * T.sinV (e T) * T.sinV l)

/-- azimuth (line 138). -/
def azimuth (T : Trig) (H phi dec : ℚ) : ℚ :=
  T.atan2V (T.sinV H) (T.cosV H * T.sinV phi - T.tanV dec * T.cosV phi)

/-- altitude (line 142). -/
def altitude (T : Trig) (H phi dec : ℚ) : F :=
  asinF T (T.sinV phi * T.sinV dec + T.cosV phi * T.cosV dec * T.cosV H)

/-- sidereal_time (line 146). -/
def sidereal_time (T : Trig) (d lw : ℚ) : ℚ :=
  rad T * (280.16 + 360.9856235 * d) - lw

-- general sun calculations (lines 161-182)

/-- solar_mean_anomaly (line 164). -/
def solar_mean_anomaly (T : Trig) (d : ℚ) : ℚ :=
  rad T * (357.5291 + 0.98560028 * d)

/-- ecliptic_longitude (line 168): equation of center, perihelion, plus pi. -/
def ecliptic_longitude (T : Trig) (M : ℚ) : ℚ :=
  M + rad T * (1.9148 * T.sinV M + 0.02 * T.sinV (2 * M) + 0.0003 * T.sinV (3 * M))
    + rad T * 102.9372 + T.piV

/-- sun_coords (line 178), declination component. -/
def sun_coords_dec (T : Trig) (d : ℚ) : F :=
  declination T (ecliptic_longitude T (solar_mean_anomaly T d)) 0

/-- sun_coords (line 178), right ascension component. -/
def sun_coords_ra (T : Trig) (d : ℚ) : ℚ :=
  right_ascension T (ecliptic_longitude T (solar_mean_anomaly T d)) 0

-- calculations for sun times (lines 185-214)

def J0 : ℚ := 0.0009

/-- np.round rounds half to even. -/
def np_round (q : ℚ) : ℤ :=
  if q - (⌊q⌋ : ℚ) < 1 / 2 then ⌊q⌋
  else if (1 : ℚ) / 2 < q - (⌊q⌋ : ℚ) then ⌊q⌋ + 1
  else if ⌊q⌋ % 2 = 0 then ⌊q⌋ else ⌊q⌋ + 1

/-- julian_cycle (line 189). -/
def julian_cycle (T : Trig) (d lw : ℚ) : ℚ :=
  ((np_round (d - J0 - lw / (2 * T.piV)) : ℤ) : ℚ)

/-- approx_transit (line 193). -/
def approx_transit (T : Trig) (Ht lw n : ℚ) : ℚ :=
  J0 + (Ht + lw) / (2 * T.piV) + n

/-- solar_transit_j (line 197). -/
def solar_transit_j (T : Trig) (ds M L : ℚ) : ℚ :=
  J2000 + ds + 0.0053 * T.sinV M - 0.0069 * T.sinV (2 * L)

/-- The argument handed to np.arccos inside hour_angle (line 202). -/
def hour_angle_ratio (T : Trig) (h : F) (phi : ℚ) (d : F) : F :=
  fdiv (fsub (fsin T h) (fmul (some (T.sinV phi)) (fsin T d)))
       (fmul (some (T.cosV phi)) (fcos T d))

/-- hour_angle (line 201): NaN when the arccos argument leaves [-1, 1]. -/
def hour_angle (T : Trig) (h : F) (phi : ℚ) (d : F) : F :=
  facos T (hour_angle_ratio T h phi d)

/-- observer_angle (line 205): np.sqrt gives NaN for negative heights. -/
def observer_angle (T : Trig) (height : ℚ) : F :=
  (fsqrt T (some height)).map fun s => -2.076 * s / 60

/-- get_set_j (line 209). -/
def get_set_j (T : Trig) (h : F) (lw phi : ℚ) (dec : F) (n M L : ℚ) : F :=
  (hour_angle T h phi dec).map fun w => solar_transit_j T (approx_transit T w lw n) M L

-- get_times (lines 232-297), scalar path.  The local variables of the
-- source are hoisted into named definitions, each parametrised by the
-- inputs it depends on; dm is the instant as epoch milliseconds.

def lwOf (T : Trig) (lng : ℚ) : ℚ := rad T * (-lng)

def phiOf (T : Trig) (lat : ℚ) : ℚ := rad T * lat

def nOf (T : Trig) (dm lng : ℚ) : ℚ := julian_cycle T (to_days dm) (lwOf T lng)

def dsOf (T : Trig) (dm lng : ℚ) : ℚ := approx_transit T 0 (lwOf T lng) (nOf T dm lng)

def MOf (T : Trig) (dm lng : ℚ) : ℚ := solar_mean_anomaly T (dsOf T dm lng)

def LOf (T : Trig) (dm lng : ℚ) : ℚ := ecliptic_longitude T (MOf T dm lng)

def decOf (T : Trig) (dm lng : ℚ) : F := declination T (LOf T dm lng) 0

def JnoonOf (T : Trig) (dm lng : ℚ) : ℚ :=
  solar_transit_j T (dsOf T dm lng) (MOf T dm lng) (LOf T dm lng)

/-- h0 = (angle + dh) * rad (line 279), for one angle of the times table. -/
def h0Of (T : Trig) (height a : ℚ) : F :=
  (fadd (some a) (observer_angle T height)).map fun x => x * rad T

/-- Jset for one entry of the times table (line 286). -/
def JsetOf (T : Trig) (dm lng lat height a : ℚ) : F :=
  get_set_j T (h0Of T height a) (lwOf T lng) (phiOf T lat) (decOf T dm lng)
    (nOf T dm lng) (MOf T dm lng) (LOf T dm lng)

/-- Jrise = Jnoon - (Jset - Jnoon) (line 287). -/
def JriseOf (T : Trig) (dm lng lat height a : ℚ) : F :=
  (JsetOf T dm lng lat height a).map fun s => JnoonOf T dm lng - (s - JnoonOf T dm lng)

/-- from_julian applied to a possibly-NaN julian day; NaN becomes the NaT
sentinel, kept as none. -/
def fromJulianF : F → F := Option.map from_julian

def riseValOf (T : Trig) (dm lng lat height a : ℚ) : F :=
  fromJulianF (JriseOf T dm lng lat height a)

def setValOf (T : Trig) (dm lng lat height a : ℚ) : F :=
  fromJulianF (JsetOf T dm lng lat height a)

/-- Assignment to a python dict key: overwrite in place when the key is
present, append otherwise. -/
def dictInsert {α : Type} : List (String × α) → String → α → List (String × α)
  | [], k, v => [(k, v)]
  | p :: rest, k, v => if p.1 = k then (k, v) :: rest else p :: dictInsert rest k v

/-- Reading a python dict key, as an option. -/
def dictGet {α : Type} : List (String × α) → String → Option α
  | [], _ => none
  | p :: rest, k => if p.1 = k then some p.2 else dictGet rest k

/-- One iteration of the loop over the times table (lines 289-295). -/
def sunStep (T : Trig) (dm lng lat height : ℚ)
    (acc : List (String × F)) (t : ℚ × String × String) : List (String × F) :=
  dictInsert (dictInsert acc t.2.1 (riseValOf T dm lng lat height t.1))
    t.2.2 (setValOf T dm lng lat height t.1)

/-- get_times (line 232), scalar path, with the same argument order as the
source: date, lng, lat, height, times. -/
def get_times (T : Trig) (dm lng lat height : ℚ)
    (times : List (ℚ × String × String)) : List (String × F) :=
  List.foldl (sunStep T dm lng lat height)
    [("solar_noon", fromJulianF (some (JnoonOf T dm lng))),
     ("nadir", fromJulianF (some (JnoonOf T dm lng - 0.5)))]
    times

/-- DEFAULT_TIMES (lines 49-56). -/
def DEFAULT_TIMES : List (ℚ × String × String) :=
  [(-0.833, "sunrise", "sunset"),
   (-0.3, "sunrise_end", "sunset_start"),
   (-6, "dawn", "dusk"),
   (-12, "nautical_dawn", "nautical_dusk"),
   (-18, "night_end", "night"),
   (6, "golden_hour_end", "golden_hour")]

/-- The morning and evening names of a times table, in order. -/
def sunNames (times : List (ℚ × String × String)) : List String :=
  times.flatMap fun t => [t.2.1, t.2.2]

/-- Batched get_times over rows of equal-length date, lng and lat arrays:
numpy broadcasting evaluates the same formulas elementwise, one result row
per input row. -/
def get_times_batch (T : Trig) (rows : List (ℚ × ℚ × ℚ)) (height : ℚ)
    (times : List (ℚ × String × String)) : List (List (String × F)) :=
  rows.map fun r => get_times T r.1 r.2.1 r.2.2 height times

/-- Modelled from the spec: the SunCalc calculator class holding the times
table is not under src (the tests construct it as SunCalc()); per the spec,
add_custom_time appends one TwilightDefinition triple of angle, morning
name and evening name to the table read by subsequent get_times calls. -/
def add_custom_time (times : List (ℚ × String × String))
    (angle : ℚ) (morningName eveningName : String) : List (ℚ × String × String) :=
  times ++ [(angle, morningName, eveningName)]

-- moon calculations (lines 304-376)

/-- moon_coords (line 304): ecliptic longitude l. -/
def moon_l (T : Trig) (d : ℚ) : ℚ :=
  rad T * (218.316 + 13.176396 * d) + rad T * 6.289 * T.sinV (rad T * (134.963 + 13.064993 * d))

/-- moon_coords: ecliptic latitude b. -/
def moon_b (T : Trig) (d : ℚ) : ℚ :=
  rad T * 5.128 * T.sinV (rad T * (93.272 + 13.229350 * d))

/-- moon_coords: distance to the moon in km. -/
def moon_dist (T : Trig) (d : ℚ) : ℚ :=
  385001 - 20905 * T.cosV (rad T * (134.963 + 13.064993 * d))

def moon_coords_ra (T : Trig) (d : ℚ) : ℚ := right_ascension T (moon_l T d) (moon_b T d)

def moon_coords_dec (T : Trig) (d : ℚ) : F := declination T (moon_l T d) (moon_b T d)

inductive PyErr where
  | typeError
deriving DecidableEq

structure MoonIllum where
  fraction : List F
  phase : F
  angle : F

/-- Multiplying a python float by a tuple: sequence repetition only accepts
an integer count, so CPython raises TypeError. -/
def pyFloatMulTuple (_x : ℚ) (_t : List F) : Except PyErr F :=
  .error PyErr.typeError

/-- getMoonIllumination (line 355).  The source line 367 ends in a comma,
so inc is bound to a one-element tuple rather than a float.  np.cos accepts
the tuple (fraction becomes a one-element array), but the phase expression
evaluates 0.5 * inc, multiplying a float by a tuple, and raises. -/
def getMoonIllumination (T : Trig) (dm : ℚ) : Except PyErr MoonIllum :=
  let d := to_days dm
  let sdec := sun_coords_dec T d
  let sra := sun_coords_ra T d
  let mdec := moon_coords_dec T d
  let mra := moon_coords_ra T d
  let mdist := moon_dist T d
  let sdist : ℚ := 149598000
  let phi := facos T (fadd (fmul (fsin T sdec) (fsin T mdec))
    (fmul (fmul (fcos T sdec) (fcos T mdec)) (some (T.cosV (sra - mra)))))
  let incTuple : List F :=
    [fatan2 T (fmul (some sdist) (fsin T phi)) (fsub (some mdist) (fmul (some sdist) (fcos T phi)))]
  let angle := fatan2 T (fmul (fcos T sdec) (some (T.sinV (sra - mra))))
    (fsub (fmul (fsin T sdec) (fcos T mdec))
      (fmul (fmul (fcos T sdec) (fsin T mdec)) (some (T.cosV (sra - mra)))))
  let fraction := incTuple.map fun x => (fadd (some 1) (fcos T x)).map fun q => q / 2
  match pyFloatMulTuple (1 / 2) incTuple with
  | .error err => .error err
  | .ok halfInc =>
      .ok { fraction := fraction,
            phase := fadd (some (1 / 2)) (fdiv (fmul halfInc (fsign angle)) (some T.piV)),
            angle := angle }

-- Shape semantics of the array path of get_times (lines 248-295).  Only
-- the lengths of the one-dimensional inputs matter: each numpy binary
-- operation broadcasts two lengths, raising when they are incompatible.

inductive ShapeErr where
  | broadcastError
deriving DecidableEq

/-- numpy broadcasting of two one-dimensional lengths. -/
def bc (a b : ℕ) : Except ShapeErr ℕ :=
  if a = b then .ok a
  else if a = 1 then .ok b
  else if b = 1 then .ok a
  else .error .broadcastError

/-- Length of each rise and set row produced by the array path of
get_times, given the lengths of the date, lat and lng inputs; the code
performs no explicit equality check, so the result is whatever the chain
of broadcasts yields.  The h0 column axis (line 283) broadcasts against
every one-dimensional operand, so it adds no constraint. -/
def get_times_shape (nDate nLat nLng : ℕ) : Except ShapeErr ℕ := do
  let bN ← bc nDate nLng        -- n = julian_cycle(d, lw)
  let bDs ← bc nLng bN          -- ds = approx_transit(0, lw, n)
  -- M, L, dec, Jnoon all have length bDs
  let bHa ← bc nLat bDs         -- hour_angle: sin(phi) * sin(dec), cos(phi) * cos(dec)
  let bAt ← bc bHa nLng         -- approx_transit: w + lw
  let bAt2 ← bc bAt bN          -- approx_transit: ... + n
  let bSet ← bc bAt2 bDs        -- solar_transit_j: Jset
  let bRise ← bc bSet bDs       -- Jrise = Jnoon - (Jset - Jnoon)
  return bRise

-- helper lemmas about the python dict model

theorem dictInsert_of_not_mem {α : Type} (l : List (String × α)) (k : String) (v : α)
    (h : k ∉ l.map Prod.fst) : dictInsert l k v = l ++ [(k, v)] := by
  induction l with
  | nil => rfl
  | cons p rest ih =>
      simp only [List.map_cons, List.mem_cons, not_or] at h
      rw [dictInsert, if_neg (fun hk => h.1 hk.symm), ih h.2]
      simp

theorem mem_dictInsert {α : Type} {p : String × α} {l : List (String × α)} {k : String}
    {v : α} (h : p ∈ dictInsert l k v) : p ∈ l ∨ p = (k, v) := by
  induction l with
  | nil => simp [dictInsert] at h; simp [h]
  | cons q rest ih =>
      rw [dictInsert] at h
      by_cases hq : q.1 = k
      · rw [if_pos hq] at h
        rcases List.mem_cons.mp h with h1 | h1
        · exact Or.inr h1
        · exact Or.inl (List.mem_cons_of_mem _ h1)
      · rw [if_neg hq] at h
        rcases List.mem_cons.mp h with h1 | h1
        · exact Or.inl (h1 ▸ List.mem_cons_self _ _)
        · rcases ih h1 with h2 | h2
          · exact Or.inl (List.mem_cons_of_mem _ h2)
          · exact Or.inr h2

theorem dictGet_dictInsert_ne {α : Type} (l : List (String × α)) (k k' : String) (v : α)
    (h : k' ≠ k) : dictGet (dictInsert l k v) k' = dictGet l k' := by
  induction l with
  | nil => simp [dictInsert, dictGet, Ne.symm h]
  | cons q rest ih =>
      rw [dictInsert]
      by_cases hq : q.1 = k
      · rw [if_pos hq, dictGet, dictGet, if_neg (fun hk => h hk.symm), hq,
          if_neg (fun hk => h hk.symm)]
      · rw [if_neg hq, dictGet, dictGet]
        by_cases hq' : q.1 = k'
        · rw [if_pos hq', if_pos hq']
        · rw [if_neg hq', if_neg hq', ih]

theorem dictGet_append_of_mem {α : Type} {l l2 : List (String × α)} {k : String}
    (h : k ∈ l.map Prod.fst) : dictGet (l ++ l2) k = dictGet l k := by
  induction l with
  | nil => simp at h
  | cons q rest ih =>
      simp only [List.map_cons, List.mem_cons] at h
      rw [List.cons_append, dictGet, dictGet]
      by_cases hq : q.1 = k
      · rw [if_pos hq, if_pos hq]
      · rw [if_neg hq, if_neg hq]
        exact ih (h.resolve_left (fun hk => hq hk.symm))

theorem dictGet_append_of_not_mem {α : Type} {l l2 : List (String × α)} {k : String}
    (h : k ∉ l.map Prod.fst) : dictGet (l ++ l2) k = dictGet l2 k := by
  induction l with
  | nil => simp
  | cons q rest ih =>
      simp only [List.map_cons, List.mem_cons, not_or] at h
      rw [List.cons_append, dictGet, if_neg (fun hk => h.1 hk.symm)]
      exact ih h.2

theorem dictGet_of_mem_nodup {α : Type} {l : List (String × α)} {k : String} {v : α}
    (hnd : (l.map Prod.fst).Nodup) (h : (k, v) ∈ l) : dictGet l k = some v := by
  induction l with
  | nil => simp at h
  | cons q rest ih =>
      simp only [List.map_cons, List.nodup_cons] at hnd
      rcases List.mem_cons.mp h with h1 | h1
      · rw [← h1, dictGet, if_pos rfl]
      · have hq : q.1 ≠ k := by
          intro hk
          exact hnd.1 (hk ▸ (List.mem_map.mpr ⟨(k, v), h1, rfl⟩))
        rw [dictGet, if_neg hq]
        exact ih hnd.2 h1

-- structure of the get_times fold

/-- The pairs the loop of get_times appends for a times table whose names
are all fresh. -/
def entryPairs (T : Trig) (dm lng lat height : ℚ)
    (times : List (ℚ × String × String)) : List (String × F) :=
  times.flatMap fun t =>
    [(t.2.1, riseValOf T dm lng lat height t.1), (t.2.2, setValOf T dm lng lat height t.1)]

theorem entryPairs_keys (T : Trig) (dm lng lat height : ℚ)
    (times : List (ℚ × String × String)) :
    (entryPairs T dm lng lat height times).map Prod.fst = sunNames times := by
  induction times with
  | nil => rfl
  | cons t rest ih => simp [entryPairs, sunNames, List.flatMap_cons] at ih ⊢; exact ih

theorem foldl_sunStep_eq_append (T : Trig) (dm lng lat height : ℚ) :
    ∀ (times : List (ℚ × String × String)) (acc : List (String × F)),
    (acc.map Prod.fst ++ sunNames times).Nodup →
    List.foldl (sunStep T dm lng lat height) acc times
      = acc ++ entryPairs T dm lng lat height times := by
  intro times
  induction times with
  | nil => intro acc _; simp [entryPairs]
  | cons t rest ih =>
      intro acc hnd
      have hnames : sunNames (t :: rest) = t.2.1 :: t.2.2 :: sunNames rest := by
        simp [sunNames, List.flatMap_cons]
      rw [hnames] at hnd
      rcases List.nodup_append.mp hnd with ⟨hacc, hrest, hdisj⟩
      have hmo : t.2.1 ∉ acc.map Prod.fst := fun hmem =>
        hdisj hmem (List.mem_cons_self _ _)
      have hev : t.2.2 ∉ acc.map Prod.fst := fun hmem =>
        hdisj hmem (List.mem_cons_of_mem _ (List.mem_cons_self _ _))
      have hne : t.2.1 ≠ t.2.2 := by
        rcases List.nodup_cons.mp hrest with ⟨hmo2, _⟩
        exact fun hk => hmo2 (hk ▸ List.mem_cons_self _ _)
      have hstep : sunStep T dm lng lat height acc t
          = acc ++ [(t.2.1, riseValOf T dm lng lat height t.1),
                    (t.2.2, setValOf T dm lng lat height t.1)] := by
        rw [sunStep, dictInsert_of_not_mem _ _ _ hmo, dictInsert_of_not_mem]
        · simp
        · simp only [List.map_append, List.map_cons, List.map_nil]
          intro hmem
          rcases List.mem_append.mp hmem with h1 | h1
          · exact hev h1
          · simp at h1
            exact hne h1.symm
      rw [List.foldl_cons, hstep, ih]
      · simp [entryPairs, List.flatMap_cons]
      · simp only [List.map_append, List.map_cons, List.map_nil, List.append_assoc]
        rw [show [t.2.1, t.2.2] ++ sunNames rest = t.2.1 :: t.2.2 :: sunNames rest from rfl]
        exact hnd

theorem keys_foldl_sunStep (T : Trig) (dm lng lat height : ℚ) :
    ∀ (times : List (ℚ × String × String)) (acc : List (String × F)) {x : String},
    x ∈ (List.foldl (sunStep T dm lng lat height) acc times).map Prod.fst →
    x ∈ acc.map Prod.fst ∨ x ∈ sunNames times := by
  intro times
  induction times with
  | nil => intro acc x h; exact Or.inl h
  | cons t rest ih =>
      intro acc x h
      rcases ih (sunStep T dm lng lat height acc t) h with h1 | h1
      · rcases List.mem_map.mp h1 with ⟨p, hp, hpx⟩
        rcases mem_dictInsert hp with h2 | h2
        · rcases mem_dictInsert h2 with h3 | h3
          · exact Or.inl (List.mem_map.mpr ⟨p, h3, hpx⟩)
          · refine Or.inr ?_
            simp [sunNames, List.flatMap_cons, ← hpx, h3]
        · refine Or.inr ?_
          simp [sunNames, List.flatMap_cons, ← hpx, h2]
      · refine Or.inr ?_
        simp [sunNames, List.flatMap_cons]
        exact Or.inr (Or.inr (by simpa [sunNames] using h1))

theorem mem_foldl_sunStep (T : Trig) (dm lng lat height : ℚ)
    (hvals : ∀ a : ℚ, riseValOf T dm lng lat height a = none
      ∧ setValOf T dm lng lat height a = none) :
    ∀ (times : List (ℚ × String × String)) (acc : List (String × F))
      {p : String × F},
    p ∈ List.foldl (sunStep T dm lng lat height) acc times → p ∈ acc ∨ p.2 = none := by
  intro times
  induction times with
  | nil => intro acc p h; exact Or.inl h
  | cons t rest ih =>
      intro acc p h
      rcases ih (sunStep T dm lng lat height acc t) h with h1 | h1
      · rcases mem_dictInsert h1 with h2 | h2
        · rcases mem_dictInsert h2 with h3 | h3
          · exact Or.inl h3
          · exact Or.inr (by rw [h3]; exact (hvals t.1).1)
        · exact Or.inr (by rw [h2]; exact (hvals t.1).2)
      · exact Or.inr h1

theorem dictGet_foldl_of_fresh (T : Trig) (dm lng lat height : ℚ) (k : String) :
    ∀ (times : List (ℚ × String × String)) (acc : List (String × F)),
    (∀ t ∈ times, t.2.1 ≠ k ∧ t.2.2 ≠ k) →
    dictGet (List.foldl (sunStep T dm lng lat height) acc times) k = dictGet acc k := by
  intro times
  induction times with
  | nil => intro acc _; rfl
  | cons t rest ih =>
      intro acc hf
      rw [List.foldl_cons, ih _ (fun u hu => hf u (List.mem_cons_of_mem _ hu)), sunStep,
        dictGet_dictInsert_ne _ _ _ _ (fun hk => ((hf t (List.mem_cons_self _ _)).2 hk.symm).elim),
        dictGet_dictInsert_ne _ _ _ _ (fun hk => ((hf t (List.mem_cons_self _ _)).1 hk.symm).elim)]

-- arithmetic facts about the julian conversions

theorem from_julian_to_julian (t : ℚ) :
    from_julian (to_julian t) = ((round (t * 1000000) : ℤ) : ℚ) / 1000000 := by
  have harg : (to_julian t + 0.5 - J1970) * dayMs * 1000000 = t * 1000000 := by
    rw [to_julian]
    have hd : dayMs ≠ 0 := by norm_num [dayMs]
    field_simp
    ring
  rw [from_julian, harg]

theorem from_julian_sub_half (x : ℚ) :
    from_julian (x - 0.5) = from_julian x - 43200000 := by
  have harg : (x - 0.5 + 0.5 - J1970) * dayMs * 1000000
      = (x + 0.5 - J1970) * dayMs * 1000000 - ((43200000000000 : ℤ) : ℚ) := by
    norm_num [dayMs, J1970]
    ring
  rw [from_julian, from_julian, harg, round_sub_int]
  push_cast
  ring

/-- C2: for every instant (given as its epoch-millisecond value), sending
it to a julian day, back to an instant, and to a julian day again differs
from the direct julian day by at most one millisecond (the re-quantisation
error is in fact at most half a nanosecond). -/
theorem julian_roundtrip_ms_tolerance (t : ℚ) :
    |to_julian (from_julian (to_julian t)) - to_julian t| ≤ 1 / dayMs := by
  rw [from_julian_to_julian]
  have hdiff : to_julian (((round (t * 1000000) : ℤ) : ℚ) / 1000000) - to_julian t
      = (((round (t * 1000000) : ℤ) : ℚ) - t * 1000000) / (1000000 * dayMs) := by
    rw [to_julian, to_julian]
    have hd : dayMs ≠ 0 := by norm_num [dayMs]
    field_simp
    ring
  rw [hdiff, abs_div]
  have hnum : |((round (t * 1000000) : ℤ) : ℚ) - t * 1000000| ≤ 1 / 2 := by
    rw [abs_sub_comm]
    exact abs_sub_round (t * 1000000)
  have hden : |(1000000 * dayMs : ℚ)| = 1000000 * dayMs := by
    rw [abs_of_pos]
    norm_num [dayMs]
  rw [hden]
  calc |((round (t * 1000000) : ℤ) : ℚ) - t * 1000000| / (1000000 * dayMs)
      ≤ (1 / 2) / (1000000 * dayMs) := by
        apply div_le_div_of_nonneg_right hnum ?_ |>.trans_eq rfl
        norm_num [dayMs]
    _ ≤ 1 / dayMs := by norm_num [dayMs]

/-- C6: for every interpretation of the primitives and all inputs, the
solar noon and nadir entries of get_times with the default table are the
instants of Jnoon and Jnoon minus half a day; they differ by exactly half
a julian day (twelve hours), nadir first. -/
theorem solar_noon_nadir_half_day (T : Trig) (dm lng lat height : ℚ) :
    dictGet (get_times T dm lng lat height DEFAULT_TIMES) "solar_noon"
        = some (some (from_julian (JnoonOf T dm lng))) ∧
    dictGet (get_times T dm lng lat height DEFAULT_TIMES) "nadir"
        = some (some (from_julian (JnoonOf T dm lng - 0.5))) ∧
    to_julian (from_julian (JnoonOf T dm lng))
        - to_julian (from_julian (JnoonOf T dm lng - 0.5)) = 0.5 ∧
    from_julian (JnoonOf T dm lng - 0.5) < from_julian (JnoonOf T dm lng) := by
  have hfresh : ∀ t ∈ DEFAULT_TIMES,
      t.2.1 ≠ "solar_noon" ∧ t.2.2 ≠ "solar_noon" := by decide
  have hfresh2 : ∀ t ∈ DEFAULT_TIMES, t.2.1 ≠ "nadir" ∧ t.2.2 ≠ "nadir" := by decide
  have hsub : from_julian (JnoonOf T dm lng - 0.5)
      = from_julian (JnoonOf T dm lng) - 43200000 := from_julian_sub_half _
  refine ⟨?_, ?_, ?_, ?_⟩
  · rw [get_times, dictGet_foldl_of_fresh T dm lng lat height _ _ _ hfresh]
    rfl
  · rw [get_times, dictGet_foldl_of_fresh T dm lng lat height _ _ _ hfresh2]
    rfl
  · rw [hsub, to_julian, to_julian]
    have hd : dayMs ≠ 0 := by norm_num [dayMs]
    field_simp
    norm_num [dayMs]
  · rw [hsub]
    linarith

/-- C5: with the trailing comma of line 367, inc is a one-element tuple,
and evaluating the phase expression multiplies the float 0.5 by that
tuple, so getMoonIllumination raises TypeError on every call and never
returns a fraction or phase at all. -/
theorem getMoonIllumination_raises (T : Trig) (dm : ℚ) :
    getMoonIllumination T dm = Except.error PyErr.typeError := rfl

/-- C8: every recognized temporal representation converts without an
error, and an input that is neither recognized nor convertible makes
to_milliseconds fail with an exception surfaced to the caller, whether or
not pandas is available. -/
theorem to_milliseconds_recognized_or_error (pdA : Bool) (i : TemporalInput) :
    (recognizedInput i = true → okB (to_milliseconds pdA i) = true) ∧
    (unconvertibleInput i = true → errB (to_milliseconds pdA i) = true) := by
  cases i <;> cases pdA <;>
    simp [to_milliseconds, recognizedInput, unconvertibleInput, okB, errB]
  case arrayOther pdConvertible ms =>
    cases pdConvertible <;> simp [okB, errB]

theorem to_milliseconds_recognized_or_error_witness :
    (recognizedInput (TemporalInput.pyDatetime 1362441600000) = true ∧
      okB (to_milliseconds true (TemporalInput.pyDatetime 1362441600000)) = true) ∧
    (unconvertibleInput TemporalInput.plainOther = true ∧
      errB (to_milliseconds true TemporalInput.plainOther) = true) :=
  ⟨⟨by decide, (to_milliseconds_recognized_or_error true _).1 (by decide)⟩,
   ⟨by decide, (to_milliseconds_recognized_or_error true _).2 (by decide)⟩⟩

theorem exceptBind_ok {ε α β : Type} (a : α) (f : α → Except ε β) :
    (Except.ok a : Except ε α) >>= f = f a := rfl

theorem exceptBind_error {ε α β : Type} (er : ε) (f : α → Except ε β) :
    (Except.error er : Except ε α) >>= f = Except.error er := rfl

/-- C9 counterexample: the claim that unequal batch lengths make get_times
fail is false; the lengths 1, 3, 3 are unequal, yet the array pipeline
broadcasts them silently and completes without error. -/
theorem get_times_shape_claim_cex :
    ¬ (∀ nDate nLat nLng : ℕ, ¬(nDate = nLat ∧ nLat = nLng) →
        errB (get_times_shape nDate nLat nLng) = true) := by
  intro h
  have h1 : errB (get_times_shape 1 3 3) = true := h 1 3 3 (by omega)
  have h2 : errB (get_times_shape 1 3 3) = false := by decide
  rw [h1] at h2
  exact absurd h2 (by decide)

/-- C9 amended: get_times checks no lengths; numpy broadcasting governs
the array path, so a length-one input broadcasts silently against the
others, while two distinct non-unit lengths in any two argument positions
raise a broadcast error in the middle of the computation. -/
theorem get_times_shape_broadcast :
    (∀ n : ℕ, get_times_shape 1 n n = Except.ok n) ∧
    (∀ a b : ℕ, a ≠ b → a ≠ 1 → b ≠ 1 →
      errB (get_times_shape a b b) = true ∧
      errB (get_times_shape a a b) = true ∧
      errB (get_times_shape a b a) = true ∧
      errB (get_times_shape b a a) = true) := by
  constructor
  · intro n
    rcases eq_or_ne n 1 with h | h
    · simp [get_times_shape, bc, h, exceptBind_ok, exceptBind_error]
    · simp [get_times_shape, bc, h, Ne.symm h, exceptBind_ok, exceptBind_error]
  · intro a b hab ha1 hb1
    refine ⟨?_, ?_, ?_, ?_⟩ <;>
      simp [get_times_shape, bc, hab, ha1, hb1, Ne.symm hab, errB,
        exceptBind_ok, exceptBind_error]

theorem get_times_shape_broadcast_witness :
    get_times_shape 1 4 4 = Except.ok 4 ∧
    ((2 : ℕ) ≠ 3 ∧ errB (get_times_shape 2 3 3) = true) :=
  ⟨get_times_shape_broadcast.1 4,
   by decide,
   (get_times_shape_broadcast.2 2 3 (by decide) (by decide) (by decide)).1⟩

/-- A concrete interpretation of the primitives, for evaluating witnesses. -/
def trivTrig : Trig :=
  { piV := 0, sinV := fun _ => 0, cosV := fun _ => 0, tanV := fun _ => 0,
    asinV := fun _ => 0, acosV := fun _ => 0, atan2V := fun _ _ => 0,
    sqrtV := fun _ => 0 }

/-- An interpretation under which the hour-angle arccos argument at the
default sunrise angle is 4, outside the arccos domain. -/
def polarTrig : Trig :=
  { piV := 180, sinV := fun _ => 1 / 2, cosV := fun _ => 1 / 4, tanV := fun _ => 0,
    asinV := fun _ => 0, acosV := fun _ => 0, atan2V := fun _ _ => 0,
    sqrtV := fun _ => 0 }

/-- The arccos argument exists and falls outside the interval [-1, 1]. -/
def outOfDomainB : F → Bool
  | some r => decide (1 < |r|)
  | none => false

/-- C3 counterexample: the result of get_times has no key named solarNoon;
the source result dict (line 275) uses the key solar_noon, as do the tests
in the repository. -/
theorem get_times_keys_claim_cex :
    ¬ ("solarNoon" ∈ (get_times trivTrig 0 0 0 0 DEFAULT_TIMES).map Prod.fst) := by
  rw [get_times, foldl_sunStep_eq_append trivTrig 0 0 0 0 DEFAULT_TIMES _ (by decide),
    List.map_append, entryPairs_keys]
  decide

/-- C3 amended: for every interpretation, input and times table whose
names are distinct and avoid the two fixed keys, the keys of the get_times
result are exactly solar_noon, nadir, and the morning and evening name of
each table entry, in table order. -/
theorem get_times_keys (T : Trig) (dm lng lat height : ℚ)
    (times : List (ℚ × String × String))
    (hnd : ("solar_noon" :: "nadir" :: sunNames times).Nodup) :
    (get_times T dm lng lat height times).map Prod.fst
      = "solar_noon" :: "nadir" :: sunNames times := by
  rw [get_times, foldl_sunStep_eq_append T dm lng lat height times _ (by simpa using hnd),
    List.map_append, entryPairs_keys]
  rfl

theorem get_times_keys_witness :
    ("solar_noon" :: "nadir" :: sunNames DEFAULT_TIMES).Nodup ∧
    (get_times trivTrig 1362441600000 30.5 50.5 0 DEFAULT_TIMES).map Prod.fst
      = "solar_noon" :: "nadir" :: sunNames DEFAULT_TIMES :=
  ⟨by decide, get_times_keys trivTrig 1362441600000 30.5 50.5 0 DEFAULT_TIMES (by decide)⟩

/-- C4: whenever the argument of the arccos inside hour_angle falls
outside [-1, 1] for a table entry (polar day or night), get_times yields
the NaT sentinel for that entry under its morning and evening keys instead
of raising, and a batch of rows always produces one result row per input
row. -/
theorem get_times_polar_nat (T : Trig) (dm lng lat height : ℚ)
    (times : List (ℚ × String × String)) (a : ℚ) (mo ev : String)
    (hmem : (a, mo, ev) ∈ times)
    (hnd : ("solar_noon" :: "nadir" :: sunNames times).Nodup)
    (hout : outOfDomainB (hour_angle_ratio T (h0Of T height a)
      (phiOf T lat) (decOf T dm lng)) = true) :
    dictGet (get_times T dm lng lat height times) mo = some none ∧
    dictGet (get_times T dm lng lat height times) ev = some none ∧
    ∀ rows : List (ℚ × ℚ × ℚ),
      (get_times_batch T rows height times).length = rows.length := by
  have hha : hour_angle T (h0Of T height a) (phiOf T lat) (decOf T dm lng) = none := by
    rcases hr : hour_angle_ratio T (h0Of T height a) (phiOf T lat) (decOf T dm lng) with
      _ | r
    · rw [hour_angle, hr]; rfl
    · rw [hr, outOfDomainB] at hout
      have hgt : (1 : ℚ) < |r| := of_decide_eq_true hout
      rw [hour_angle, hr]
      simp [facos, acosF, not_le.mpr hgt]
  have hjset : JsetOf T dm lng lat height a = none := by
    rw [JsetOf, get_set_j, hha]; rfl
  have hrise : riseValOf T dm lng lat height a = none := by
    rw [riseValOf, JriseOf, hjset]; rfl
  have hset : setValOf T dm lng lat height a = none := by
    rw [setValOf, hjset]; rfl
  have hmoS : mo ∈ sunNames times :=
    List.mem_flatMap.mpr ⟨(a, mo, ev), hmem, by simp⟩
  have hevS : ev ∈ sunNames times :=
    List.mem_flatMap.mpr ⟨(a, mo, ev), hmem, by simp⟩
  have hsnN : "solar_noon" ∉ "nadir" :: sunNames times := (List.nodup_cons.mp hnd).1
  have hndN : "nadir" ∉ sunNames times :=
    (List.nodup_cons.mp (List.nodup_cons.mp hnd).2).1
  have hSnd : (sunNames times).Nodup :=
    (List.nodup_cons.mp (List.nodup_cons.mp hnd).2).2
  have hmoSn : mo ≠ "solar_noon" := fun hk =>
    hsnN (List.mem_cons_of_mem _ (hk ▸ hmoS))
  have hmoNd : mo ≠ "nadir" := fun hk => hndN (hk ▸ hmoS)
  have hevSn : ev ≠ "solar_noon" := fun hk =>
    hsnN (List.mem_cons_of_mem _ (hk ▸ hevS))
  have hevNd : ev ≠ "nadir" := fun hk => hndN (hk ▸ hevS)
  have hstruct : get_times T dm lng lat height times
      = [("solar_noon", fromJulianF (some (JnoonOf T dm lng))),
         ("nadir", fromJulianF (some (JnoonOf T dm lng - 0.5)))]
        ++ entryPairs T dm lng lat height times := by
    rw [get_times, foldl_sunStep_eq_append T dm lng lat height times _ (by simpa using hnd)]
  have hkeys : (entryPairs T dm lng lat height times).map Prod.fst = sunNames times :=
    entryPairs_keys T dm lng lat height times
  have hknd : ((entryPairs T dm lng lat height times).map Prod.fst).Nodup := by
    rw [hkeys]; exact hSnd
  have hmoP : (mo, riseValOf T dm lng lat height a)
      ∈ entryPairs T dm lng lat height times :=
    List.mem_flatMap.mpr ⟨(a, mo, ev), hmem, by simp⟩
  have hevP : (ev, setValOf T dm lng lat height a)
      ∈ entryPairs T dm lng lat height times :=
    List.mem_flatMap.mpr ⟨(a, mo, ev), hmem, by simp⟩
  refine ⟨?_, ?_, ?_⟩
  · rw [hstruct, dictGet_append_of_not_mem (by simp [hmoSn, hmoNd]),
      dictGet_of_mem_nodup hknd hmoP, hrise]
  · rw [hstruct, dictGet_append_of_not_mem (by simp [hevSn, hevNd]),
      dictGet_of_mem_nodup hknd hevP, hset]
  · intro rows
    simp [get_times_batch]

theorem get_times_polar_nat_witness :
    ((-0.833 : ℚ), "sunrise", "sunset") ∈ DEFAULT_TIMES ∧
    outOfDomainB (hour_angle_ratio polarTrig (h0Of polarTrig 0 (-0.833))
      (phiOf polarTrig 0) (decOf polarTrig 0 0)) = true ∧
    dictGet (get_times polarTrig 0 0 0 0 DEFAULT_TIMES) "sunrise" = some none ∧
    dictGet (get_times polarTrig 0 0 0 0 DEFAULT_TIMES) "sunset" = some none := by
  have hmem : ((-0.833 : ℚ), "sunrise", "sunset") ∈ DEFAULT_TIMES :=
    List.mem_cons_self _ _
  have hdec : decOf polarTrig 0 0 = some 0 := by
    rw [decOf, declination, asinF, if_pos]
    · norm_num [polarTrig]
    · rw [abs_le]
      constructor <;> norm_num [polarTrig]
  have hh0 : h0Of polarTrig 0 (-0.833) = some (-0.833) := by
    rw [h0Of, observer_angle, fsqrt]
    norm_num [polarTrig, fadd, fmap2, rad]
  have hratio : hour_angle_ratio polarTrig (h0Of polarTrig 0 (-0.833))
      (phiOf polarTrig 0) (decOf polarTrig 0 0) = some 4 := by
    rw [hour_angle_ratio, hh0, hdec]
    norm_num [polarTrig, fdiv, fsub, fmul, fsin, fcos, fmap2]
  have hout : outOfDomainB (hour_angle_ratio polarTrig (h0Of polarTrig 0 (-0.833))
      (phiOf polarTrig 0) (decOf polarTrig 0 0)) = true := by
    rw [hratio, outOfDomainB, decide_eq_true_eq]
    norm_num
  have h := get_times_polar_nat polarTrig 0 0 0 0 DEFAULT_TIMES (-0.833) "sunrise"
    "sunset" hmem (by decide) hout
  exact ⟨hmem, hout, h.1, h.2.1⟩

/-- C7: appending one custom twilight definition with two fresh names adds
exactly the two new keys, in order, at the end of the get_times result and
leaves the value of every previously existing key unchanged. -/
theorem add_custom_time_frame (T : Trig) (dm lng lat height : ℚ)
    (times : List (ℚ × String × String)) (a : ℚ) (mo ev : String)
    (hmo : mo ∉ "solar_noon" :: "nadir" :: sunNames times)
    (hev : ev ∉ "solar_noon" :: "nadir" :: sunNames times)
    (hne : mo ≠ ev) :
    (get_times T dm lng lat height (add_custom_time times a mo ev)).map Prod.fst
      = (get_times T dm lng lat height times).map Prod.fst ++ [mo, ev] ∧
    ∀ k ∈ (get_times T dm lng lat height times).map Prod.fst,
      dictGet (get_times T dm lng lat height (add_custom_time times a mo ev)) k
        = dictGet (get_times T dm lng lat height times) k := by
  simp only [List.mem_cons, not_or] at hmo hev
  have hstep : get_times T dm lng lat height (add_custom_time times a mo ev)
      = dictInsert (dictInsert (get_times T dm lng lat height times) mo
          (riseValOf T dm lng lat height a)) ev (setValOf T dm lng lat height a) := by
    rw [get_times, add_custom_time, List.foldl_append]
    rfl
  have hmoK : mo ∉ (get_times T dm lng lat height times).map Prod.fst := by
    intro hmemK
    rcases keys_foldl_sunStep T dm lng lat height times _ hmemK with h1 | h1
    · simp only [List.map_cons, List.map_nil, List.mem_cons, List.not_mem_nil,
        or_false] at h1
      rcases h1 with h1 | h1
      · exact hmo.1 h1
      · exact hmo.2.1 h1
    · exact hmo.2.2 h1
  have hevK : ev ∉ (get_times T dm lng lat height times).map Prod.fst := by
    intro hmemK
    rcases keys_foldl_sunStep T dm lng lat height times _ hmemK with h1 | h1
    · simp only [List.map_cons, List.map_nil, List.mem_cons, List.not_mem_nil,
        or_false] at h1
      rcases h1 with h1 | h1
      · exact hev.1 h1
      · exact hev.2.1 h1
    · exact hev.2.2 h1
  have hins1 : dictInsert (get_times T dm lng lat height times) mo
      (riseValOf T dm lng lat height a)
      = get_times T dm lng lat height times ++ [(mo, riseValOf T dm lng lat height a)] :=
    dictInsert_of_not_mem _ _ _ hmoK
  have hevK2 : ev ∉ (get_times T dm lng lat height times
      ++ [(mo, riseValOf T dm lng lat height a)]).map Prod.fst := by
    simp only [List.map_append, List.map_cons, List.map_nil, List.mem_append,
      List.mem_cons, List.not_mem_nil, or_false, not_or]
    exact ⟨hevK, fun hk => hne hk.symm⟩
  have hfull : get_times T dm lng lat height (add_custom_time times a mo ev)
      = get_times T dm lng lat height times
        ++ [(mo, riseValOf T dm lng lat height a), (ev, setValOf T dm lng lat height a)] := by
    rw [hstep, hins1, dictInsert_of_not_mem _ _ _ hevK2, List.append_assoc]
    rfl
  constructor
  · rw [hfull]
    simp
  · intro k hk
    rw [hfull, dictGet_append_of_mem hk]

theorem add_custom_time_frame_witness :
    ("custom_dawn" ∉ "solar_noon" :: "nadir" :: sunNames DEFAULT_TIMES) ∧
    ("custom_dusk" ∉ "solar_noon" :: "nadir" :: sunNames DEFAULT_TIMES) ∧
    ("custom_dawn" ≠ "custom_dusk") ∧
    (get_times trivTrig 0 0 0 0
        (add_custom_time DEFAULT_TIMES 1 "custom_dawn" "custom_dusk")).map Prod.fst
      = (get_times trivTrig 0 0 0 0 DEFAULT_TIMES).map Prod.fst
        ++ ["custom_dawn", "custom_dusk"] :=
  ⟨by decide, by decide, by decide,
   (add_custom_time_frame trivTrig 0 0 0 0 DEFAULT_TIMES 1 "custom_dawn" "custom_dusk"
     (by decide) (by decide) (by decide)).1⟩

-- C10 preliminaries: with a negative observer height, np.sqrt makes dh
-- NaN, which propagates to every rise and set value.

theorem sunVals_none_of_neg_height (T : Trig) (dm lng lat height : ℚ)
    (h : height < 0) (a : ℚ) :
    riseValOf T dm lng lat height a = none ∧ setValOf T dm lng lat height a = none := by
  have hsq : observer_angle T height = none := by
    simp [observer_angle, fsqrt, not_le.mpr h]
  have hh0 : h0Of T height a = none := by
    simp [h0Of, fadd, fmap2, hsq]
  have hjset : JsetOf T dm lng lat height a = none := by
    simp [JsetOf, get_set_j, hour_angle, hour_angle_ratio, hh0, facos, fdiv,
      fsub, fsin, fmul, fmap2, fcos]
  constructor <;> simp [riseValOf, setValOf, JriseOf, hjset, fromJulianF]

/-- C10: a strictly negative observer height raises no error; every value
of the result other than the solar noon and nadir entries is the NaT
sentinel, while the solar noon and nadir entries are exactly those of the
same call with height 0. -/
theorem get_times_neg_height (T : Trig) (dm lng lat height : ℚ)
    (times : List (ℚ × String × String))
    (hneg : height < 0)
    (hsn : ∀ t ∈ times, t.2.1 ≠ "solar_noon" ∧ t.2.2 ≠ "solar_noon")
    (hnd : ∀ t ∈ times, t.2.1 ≠ "nadir" ∧ t.2.2 ≠ "nadir") :
    (∀ p ∈ get_times T dm lng lat height times,
      p.1 ≠ "solar_noon" → p.1 ≠ "nadir" → p.2 = none) ∧
    dictGet (get_times T dm lng lat height times) "solar_noon"
      = dictGet (get_times T dm lng lat 0 times) "solar_noon" ∧
    dictGet (get_times T dm lng lat height times) "nadir"
      = dictGet (get_times T dm lng lat 0 times) "nadir" := by
  refine ⟨?_, ?_, ?_⟩
  · intro p hp hp1 hp2
    rcases mem_foldl_sunStep T dm lng lat height
        (sunVals_none_of_neg_height T dm lng lat height hneg) times _ hp with h1 | h1
    · simp only [List.mem_cons, List.not_mem_nil, or_false] at h1
      rcases h1 with h1 | h1
      · exact absurd (congrArg Prod.fst h1) hp1
      · exact absurd (congrArg Prod.fst h1) hp2
    · exact h1
  · rw [get_times, get_times,
      dictGet_foldl_of_fresh T dm lng lat height "solar_noon" times _ hsn,
      dictGet_foldl_of_fresh T dm lng lat 0 "solar_noon" times _ hsn]
  · rw [get_times, get_times,
      dictGet_foldl_of_fresh T dm lng lat height "nadir" times _ hnd,
      dictGet_foldl_of_fresh T dm lng lat 0 "nadir" times _ hnd]

theorem get_times_neg_height_witness :
    ((-1 : ℚ) < 0) ∧
    dictGet (get_times trivTrig 0 0 0 (-1) DEFAULT_TIMES) "solar_noon"
      = dictGet (get_times trivTrig 0 0 0 0 DEFAULT_TIMES) "solar_noon" :=
  ⟨by norm_num,
   (get_times_neg_height trivTrig 0 0 0 (-1) DEFAULT_TIMES (by norm_num)
     (by decide) (by decide)).2.1⟩

end Suncalc
